import Mathlib

set_option maxRecDepth 8000

/-!
Verification of the `Obj` dynamic value type of `serde_utils` (`src/generic.rs`):
the equality / ordering / hashing contract and the serde build (`GenericVisitor`)
and emit (`impl Serialize for Obj`) protocols.

Modelling conventions:
* `u64` payloads are `Nat`, `i64` payloads are `Int`; the claims add the range
  bounds (`< 2^64`, `-(2^63) ≤ i`, `≤ 2^63 - 1`) as hypotheses where they matter.
* `f64` payloads are carried as their 64-bit IEEE-754 pattern (a `Nat`); see the
  `F64` namespace for `is_nan`, IEEE equality and the Float arm of `cmp`.
* `Vec<Obj>` is a list, `BTreeMap<Obj, Obj>` is its in-order entry list with
  `BTreeMap::insert` modelled as an ordered-insert by `Obj::cmp` that, on an
  `Equal` key, replaces the value but keeps the stored key (Rust semantics).
* `Hash` is modelled as the stream of words the implementation writes into the
  `Hasher` (`hashToks`); two values hash alike iff the streams coincide.
-/

/-- Three-way comparison on `Nat`, mirroring `u64::cmp` / `u8::cmp`. -/
def ncmp (a b : Nat) : Ordering :=
  if a < b then .lt else if b < a then .gt else .eq

/-- Three-way comparison on `Int`, mirroring `i64::cmp`. -/
def icmp (a b : Int) : Ordering :=
  if a < b then .lt else if b < a then .gt else .eq

/-- Three-way comparison on `Bool`, mirroring `bool::cmp` (`false < true`). -/
def bcmp (a b : Bool) : Ordering :=
  match a, b with
  | false, false => .eq
  | false, true => .lt
  | true, false => .gt
  | true, true => .eq

/-- Lexicographic comparison of byte sequences, mirroring `Vec<u8>::cmp`
    (first differing byte decides; a strict prefix is smaller). -/
def cmpBytes : List Nat → List Nat → Ordering
  | [], [] => .eq
  | [], _ :: _ => .lt
  | _ :: _, [] => .gt
  | a :: xs, b :: ys =>
    match ncmp a b with
    | .eq => cmpBytes xs ys
    | o => o

/-- Lexicographic comparison of strings by code point, which equals Rust's
    byte-wise UTF-8 `str::cmp` order (UTF-8 preserves code-point order). -/
def cmpStr (s t : String) : Ordering :=
  cmpBytes (s.data.map Char.toNat) (t.data.map Char.toNat)

namespace F64

/-- An `f64` is modelled by its 64-bit IEEE-754 pattern. `is_nan` holds iff the
    exponent field is all ones and the fraction field is nonzero. -/
def isNan (bits : Nat) : Bool :=
  (bits / 2 ^ 52) % 2 ^ 11 == 2047 && bits % 2 ^ 52 != 0

/-- Sign-magnitude order key of a bit pattern. On non-NaN doubles this is an
    order embedding of the IEEE comparison: negative values (sign bit set) map
    to the negated magnitude, so `+0.0` and `-0.0` share key `0`. -/
def orderKey (bits : Nat) : Int :=
  if (bits / 2 ^ 63) % 2 == 1 then -((bits % 2 ^ 63 : Nat) : Int)
  else ((bits % 2 ^ 63 : Nat) : Int)

/-- IEEE-754 `==` on `f64` (`val == oval` in Rust): false whenever either side
    is NaN, otherwise equality of the order keys (`+0.0 == -0.0`). -/
def ieeeEq (x y : Nat) : Bool :=
  if isNan x || isNan y then false else orderKey x == orderKey y

/-- The Float arm of `Ord::cmp` in `generic.rs`:
    `if !val.is_nan() && !oval.is_nan() { val.partial_cmp(&oval).unwrap() }
     else if val.is_nan() { Greater } else { Less }`. -/
def cmpF (x y : Nat) : Ordering :=
  if !isNan x && !isNan y then icmp (orderKey x) (orderKey y)
  else if isNan x then .gt
  else .lt

/-- The quiet-NaN pattern of `f64::NAN`. -/
def nanBits : Nat := 0x7ff8000000000000

/-- A second NaN pattern (nonzero low fraction bit). -/
def nanBits2 : Nat := 0x7ff8000000000001

end F64

mutual

/-- The `Obj` enum of `generic.rs`. `ObjList` is the payload of `Obj::List`
    (`Vec<Obj>`), `ObjMap` the in-order entry list of `Obj::Map`
    (`BTreeMap<Obj, Obj>`). -/
inductive Obj where
  | null
  | bool (b : Bool)
  | signed (i : Int)
  | unsigned (n : Nat)
  | float (bits : Nat)
  | str (s : String)
  | bin (bs : List Nat)
  | list (l : ObjList)
  | map (m : ObjMap)

inductive ObjList where
  | nil
  | cons (hd : Obj) (tl : ObjList)

inductive ObjMap where
  | nil
  | cons (k : Obj) (v : Obj) (tl : ObjMap)

end

/-- `Obj::type_num`. -/
def Obj.typeNum : Obj → Nat
  | .null => 0
  | .bool _ => 1
  | .signed _ => 2
  | .unsigned _ => 3
  | .float _ => 4
  | .str _ => 5
  | .bin _ => 6
  | .list _ => 7
  | .map _ => 8

/-- One-step unfolding of `&Obj::Unsigned(n) == other` (the first
    canonicalization branch of `PartialEq::eq`): re-entering `eq` with an
    `Unsigned` left side only triggers the second canonicalization branch
    (for a non-negative `Signed` right side) and then the `Unsigned` match
    arm, so the result is a plain numeric comparison. -/
def Obj.unsignedEq (n : Nat) : Obj → Bool
  | .signed j => if 0 ≤ j then n == j.toNat else false
  | .unsigned m => n == m
  | _ => false

/-- One-step unfolding of `self == &Obj::Unsigned(n)` (the second
    canonicalization branch of `PartialEq::eq`). -/
def Obj.eqUnsigned : Obj → Nat → Bool
  | .signed i, n => if 0 ≤ i then i.toNat == n else false
  | .unsigned m, n => m == n
  | _, _ => false

/-- Tail of `PartialEq::eq` for a negative `Signed(i)` left side: a
    non-negative `Signed` right side is canonicalized to `Unsigned` (and then
    fails the `Signed` match arm), a negative one is compared numerically,
    everything else falls through the `Signed` match arm to `false`. -/
def Obj.eqSigned (i : Int) : Obj → Bool
  | .signed j => if 0 ≤ j then false else i == j
  | _ => false

/-- Tail of `PartialEq::eq` for a negative `Signed(j)` right side and a
    non-`Signed` left side: the match arm of the left constructor requires the
    right side to have the same constructor, so the result is `false`
    (the `Signed` arm is kept for faithfulness but is unreachable here). -/
def Obj.eqSignedR : Obj → Int → Bool
  | .signed i, j => i == j
  | _, _ => false

mutual

/-- `impl PartialEq for Obj` (`generic.rs` lines 78-104): the two leading
    canonicalization branches replace a non-negative `Signed` operand by the
    `Unsigned` of the same magnitude, then the match compares same-constructor
    payloads (with the NaN special case for `Float`). -/
def Obj.eq : Obj → Obj → Bool
  | .signed i, b => if 0 ≤ i then Obj.unsignedEq i.toNat b else Obj.eqSigned i b
  | a, .signed j => if 0 ≤ j then Obj.eqUnsigned a j.toNat else Obj.eqSignedR a j
  | .null, .null => true
  | .bool v, .bool w => v == w
  | .unsigned n, .unsigned m => n == m
  | .float x, .float y => if F64.isNan x && F64.isNan y then true else F64.ieeeEq x y
  | .str s, .str t => s == t
  | .bin u, .bin w => u == w
  | .list l1, .list l2 => ObjList.eqL l1 l2
  | .map m1, .map m2 => ObjMap.eqM m1 m2
  | _, _ => false

def ObjList.eqL : ObjList → ObjList → Bool
  | .nil, .nil => true
  | .cons h1 t1, .cons h2 t2 => Obj.eq h1 h2 && ObjList.eqL t1 t2
  | _, _ => false

def ObjMap.eqM : ObjMap → ObjMap → Bool
  | .nil, .nil => true
  | .cons k1 v1 t1, .cons k2 v2 t2 => Obj.eq k1 k2 && Obj.eq v1 v2 && ObjMap.eqM t1 t2
  | _, _ => false

end

/-- One-step unfolding of `Obj::Unsigned(n).cmp(other)` (the first
    canonicalization branch of `Ord::cmp`). -/
def Obj.unsignedCmp (n : Nat) : Obj → Ordering
  | .signed j => if 0 ≤ j then ncmp n j.toNat else ncmp 3 (Obj.typeNum (.signed j))
  | .unsigned m => ncmp n m
  | b => ncmp 3 b.typeNum

/-- One-step unfolding of `self.cmp(&Obj::Unsigned(n))` (the second
    canonicalization branch of `Ord::cmp`). -/
def Obj.cmpUnsigned : Obj → Nat → Ordering
  | .signed i, n => if 0 ≤ i then ncmp i.toNat n else ncmp (Obj.typeNum (.signed i)) 3
  | .unsigned m, n => ncmp m n
  | a, _ => ncmp a.typeNum 3

/-- Tail of `Ord::cmp` for a negative `Signed(i)` left side. -/
def Obj.signedCmp (i : Int) : Obj → Ordering
  | .signed j => if 0 ≤ j then Obj.cmpUnsigned (.signed i) j.toNat else icmp i j
  | b => ncmp (Obj.typeNum (.signed i)) b.typeNum

mutual

/-- `impl Ord for Obj` (`generic.rs` lines 114-181): canonicalize non-negative
    `Signed` operands to `Unsigned`, compare `type_num` across classes, and
    compare payloads within a class (with the NaN arm for `Float`). -/
def Obj.cmp : Obj → Obj → Ordering
  | .signed i, b => if 0 ≤ i then Obj.unsignedCmp i.toNat b else Obj.signedCmp i b
  | a, .signed j =>
    if 0 ≤ j then Obj.cmpUnsigned a j.toNat
    else ncmp a.typeNum (Obj.typeNum (.signed j))
  | .null, .null => .eq
  | .bool v, .bool w => bcmp v w
  | .unsigned n, .unsigned m => ncmp n m
  | .float x, .float y => F64.cmpF x y
  | .str s, .str t => cmpStr s t
  | .bin u, .bin w => cmpBytes u w
  | .list l1, .list l2 => ObjList.cmpL l1 l2
  | .map m1, .map m2 => ObjMap.cmpM m1 m2
  | a, b => ncmp a.typeNum b.typeNum

def ObjList.cmpL : ObjList → ObjList → Ordering
  | .nil, .nil => .eq
  | .nil, .cons _ _ => .lt
  | .cons _ _, .nil => .gt
  | .cons h1 t1, .cons h2 t2 =>
    match Obj.cmp h1 h2 with
    | .eq => ObjList.cmpL t1 t2
    | o => o

def ObjMap.cmpM : ObjMap → ObjMap → Ordering
  | .nil, .nil => .eq
  | .nil, .cons _ _ _ => .lt
  | .cons _ _ _, .nil => .gt
  | .cons k1 v1 t1, .cons k2 v2 t2 =>
    match Obj.cmp k1 k2 with
    | .eq =>
      match Obj.cmp v1 v2 with
      | .eq => ObjMap.cmpM t1 t2
      | o => o
    | o => o

end

/-- A word written into the `Hasher` state by `impl Hash for Obj`. -/
inductive HTok where
  | u8 (n : Nat)
  | u64 (n : Nat)
  | i64 (i : Int)
  | strBytes (s : String)
  deriving DecidableEq

mutual

/-- `impl Hash for Obj` (`generic.rs` lines 183-203), modelled as the stream of
    words written to the hasher: a non-negative `Signed` is hashed as the
    `Unsigned` of the same magnitude (one-step unfolded); otherwise the
    `type_num` discriminant is written first and then the payload, with the
    `Float` payload written as its raw transmuted bit pattern. Strings write
    their bytes plus the `0xff` terminator; byte buffers, lists and maps write
    their length and then their contents, as the standard library `Hash`
    implementations for `str`, `Vec` and `BTreeMap` do. -/
def Obj.hashToks : Obj → List HTok
  | .signed i =>
    if 0 ≤ i then [.u8 3, .u64 i.toNat]
    else [.u8 2, .i64 i]
  | .null => [.u8 0]
  | .bool b => [.u8 1, .u8 (if b then 1 else 0)]
  | .unsigned n => [.u8 3, .u64 n]
  | .float bits => [.u8 4, .u64 bits]
  | .str s => [.u8 5, .strBytes s, .u8 0xff]
  | .bin bs => .u8 6 :: .u64 bs.length :: bs.map .u8
  | .list l => .u8 7 :: .u64 (ObjList.len l) :: ObjList.hashL l
  | .map m => .u8 8 :: .u64 (ObjMap.len m) :: ObjMap.hashM m

/-- Hash stream of the elements of a list, in order. -/
def ObjList.hashL : ObjList → List HTok
  | .nil => []
  | .cons h t => Obj.hashToks h ++ ObjList.hashL t

/-- Hash stream of the entries of a map, in stored (sorted) order. -/
def ObjMap.hashM : ObjMap → List HTok
  | .nil => []
  | .cons k v t => Obj.hashToks k ++ Obj.hashToks v ++ ObjMap.hashM t

/-- Length of an `ObjList` (`Vec::len`). -/
def ObjList.len : ObjList → Nat
  | .nil => 0
  | .cons _ t => ObjList.len t + 1

/-- Number of entries of an `ObjMap` (`BTreeMap::len`). -/
def ObjMap.len : ObjMap → Nat
  | .nil => 0
  | .cons _ _ t => ObjMap.len t + 1

end

/-- `BTreeMap::insert` on the in-order entry list: walk forward past entries
    whose key compares `Greater`-dominated by the new key, insert before the
    first strictly greater key, and on an `Equal` key replace the value while
    keeping the stored key (Rust's `BTreeMap` does not update the key). -/
def ObjMap.insert (k v : Obj) : ObjMap → ObjMap
  | .nil => .cons k v .nil
  | .cons k' v' tl =>
    match Obj.cmp k k' with
    | .lt => .cons k v (.cons k' v' tl)
    | .eq => .cons k' v tl
    | .gt => .cons k' v' (ObjMap.insert k v tl)

/-- Concatenation of entry lists. -/
def ObjMap.append : ObjMap → ObjMap → ObjMap
  | .nil, m => m
  | .cons k v tl, m => .cons k v (ObjMap.append tl m)

/-- `keyGtAll k m`: the key `k` compares `Greater` against every key of `m`. -/
def ObjMap.keyGtAll (k : Obj) : ObjMap → Bool
  | .nil => true
  | .cons k' _ tl => decide (Obj.cmp k k' = .gt) && ObjMap.keyGtAll k tl

/-- `allKeysGt m k`: every key of `m` compares `Greater` against `k`. -/
def ObjMap.allKeysGt : ObjMap → Obj → Bool
  | .nil, _ => true
  | .cons k' _ tl, k => decide (Obj.cmp k' k = .gt) && ObjMap.allKeysGt tl k

/-- `allGtAll m acc`: every key of `m` compares `Greater` against every key of
    `acc`. -/
def ObjMap.allGtAll : ObjMap → ObjMap → Bool
  | .nil, _ => true
  | .cons k _ tl, acc => ObjMap.keyGtAll k acc && ObjMap.allGtAll tl acc

/-- The `BTreeMap` storage invariant on the in-order entry list: every key
    compares `Greater` (under `Obj::cmp`) against every key stored before it.
    For a consistent comparator this is strict ascending order; it is phrased
    through `cmp _ _ = Greater` so that it also covers the stored order the
    tree produces for `Float` NaN keys, on which `cmp` is not reflexive. -/
def ObjMap.ordered : ObjMap → Bool
  | .nil => true
  | .cons k _ tl => ObjMap.allKeysGt tl k && ObjMap.ordered tl

mutual

/-- Structural well-formedness of an `Obj`: every `Map` subterm satisfies the
    `BTreeMap` storage invariant `ObjMap.ordered`. -/
def Obj.wf : Obj → Bool
  | .list l => ObjList.wfL l
  | .map m => ObjMap.ordered m && ObjMap.wfM m
  | _ => true

/-- Well-formedness of every element of a list. -/
def ObjList.wfL : ObjList → Bool
  | .nil => true
  | .cons h t => Obj.wf h && ObjList.wfL t

/-- Well-formedness of every key and value of a map. -/
def ObjMap.wfM : ObjMap → Bool
  | .nil => true
  | .cons k v t => Obj.wf k && Obj.wf v && ObjMap.wfM t

end

mutual

/-- A primitive decode event handed to `GenericVisitor`, one constructor per
    visitor method (`visit_none`, `visit_unit`, `visit_bool`, `visit_u64`,
    `visit_i64`, `visit_f64`, `visit_str`, `visit_string`, `visit_bytes`,
    `visit_byte_buf`, `visit_seq`, `visit_map`). A `seq`/`map` event carries
    its element/entry events plus the outcome of the decoder's `end()` call
    (`endErr`); `fail` stands for an element/entry access on which the
    underlying decoder itself returns an error. -/
inductive Event where
  | noneE
  | unitE
  | boolE (b : Bool)
  | u64E (n : Nat)
  | i64E (i : Int)
  | f64E (bits : Nat)
  | strE (s : String)
  | stringE (s : String)
  | bytesE (bs : List Nat)
  | byteBufE (bs : List Nat)
  | seqE (elems : EventList) (endErr : Option String)
  | mapE (entries : EventPairs) (endErr : Option String)
  | fail (msg : String)

inductive EventList where
  | nil
  | cons (hd : Event) (tl : EventList)

inductive EventPairs where
  | nil
  | cons (k : Event) (v : Event) (tl : EventPairs)

end

mutual

/-- `GenericVisitor` (`generic.rs` lines 222-298): fold one decode event into
    an `Obj`. Every primitive handler returns `Ok` with the corresponding
    variant; `visit_seq` pushes the decoded elements in arrival order and
    `visit_map` inserts the decoded entries into a fresh `BTreeMap`, each
    propagating an error from the decoder's element/entry access or `end()`
    call via `try!`. -/
def buildValue : Event → Except String Obj
  | .noneE => .ok .null
  | .unitE => .ok .null
  | .boolE b => .ok (.bool b)
  | .u64E n => .ok (.unsigned n)
  | .i64E i => .ok (.signed i)
  | .f64E bits => .ok (.float bits)
  | .strE s => .ok (.str s)
  | .stringE s => .ok (.str s)
  | .bytesE bs => .ok (.bin bs)
  | .byteBufE bs => .ok (.bin bs)
  | .seqE elems endErr =>
    match buildList elems with
    | .error e => .error e
    | .ok l =>
      match endErr with
      | some e => .error e
      | none => .ok (.list l)
  | .mapE entries endErr =>
    match buildMap .nil entries with
    | .error e => .error e
    | .ok m =>
      match endErr with
      | some e => .error e
      | none => .ok (.map m)
  | .fail msg => .error msg

/-- The `visit_seq` loop: `while let Some(value) = try!(visitor.visit()) {
    list.push(value); }`. -/
def buildList : EventList → Except String ObjList
  | .nil => .ok .nil
  | .cons hd tl =>
    match buildValue hd with
    | .error e => .error e
    | .ok v =>
      match buildList tl with
      | .error e => .error e
      | .ok vs => .ok (.cons v vs)

/-- The `visit_map` loop: `while let Some((key, value)) = try!(visitor.visit())
    { map.insert(key, value); }`, accumulating into `acc`. -/
def buildMap (acc : ObjMap) : EventPairs → Except String ObjMap
  | .nil => .ok acc
  | .cons ke ve tl =>
    match buildValue ke with
    | .error e => .error e
    | .ok k =>
      match buildValue ve with
      | .error e => .error e
      | .ok v => buildMap (ObjMap.insert k v acc) tl

end

mutual

/-- `impl Serialize for Obj` (`generic.rs` lines 205-220): replay a value as
    its primitive event stream. `Null` emits `serialize_none`, numeric and
    string variants emit the corresponding primitive, `List` emits its
    elements in order and `Map` its entries in stored (sorted) order, with a
    successful `end`. -/
def Obj.emit : Obj → Event
  | .null => .noneE
  | .bool b => .boolE b
  | .unsigned n => .u64E n
  | .signed i => .i64E i
  | .float bits => .f64E bits
  | .str s => .strE s
  | .bin bs => .bytesE bs
  | .list l => .seqE (ObjList.emitL l) Option.none
  | .map m => .mapE (ObjMap.emitM m) Option.none

/-- Emit each element of a list. -/
def ObjList.emitL : ObjList → EventList
  | .nil => .nil
  | .cons h t => .cons (Obj.emit h) (ObjList.emitL t)

/-- Emit each entry of a map, in stored order. -/
def ObjMap.emitM : ObjMap → EventPairs
  | .nil => .nil
  | .cons k v t => .cons (Obj.emit k) (Obj.emit v) (ObjMap.emitM t)

end

mutual

/-- An event tree is clean when the underlying decoder never fails on it: it
    contains no `fail` access and every `seq`/`map` `end()` call succeeds. -/
def Event.clean : Event → Bool
  | .seqE l err => err.isNone && EventList.cleanL l
  | .mapE ps err => err.isNone && EventPairs.cleanP ps
  | .fail _ => false
  | _ => true

/-- Cleanliness of every element event. -/
def EventList.cleanL : EventList → Bool
  | .nil => true
  | .cons h t => Event.clean h && EventList.cleanL t

/-- Cleanliness of every entry event. -/
def EventPairs.cleanP : EventPairs → Bool
  | .nil => true
  | .cons k v t => Event.clean k && Event.clean v && EventPairs.cleanP t

end

/-- A single-element sequence event nested to depth `n` around a `u64` leaf. -/
def nestedSeq : Nat → Event
  | 0 => .u64E 0
  | n + 1 => .seqE (.cons (nestedSeq n) .nil) Option.none

/-- The value that decoding `nestedSeq n` produces: single-element lists
    nested to depth `n` around `Unsigned(0)`. -/
def nestedObj : Nat → Obj
  | 0 => .unsigned 0
  | n + 1 => .list (.cons (nestedObj n) .nil)

/-- Whether an `Except` result is a success. -/
def isOkE {α : Type} : Except String α → Bool
  | .ok _ => true
  | .error _ => false

theorem ncmp_self (n : Nat) : ncmp n n = .eq := by
  simp [ncmp]

mutual

/-- `Obj::eq` is reflexive: every value, including `Float` NaNs, equals
    itself under `PartialEq`. -/
theorem Obj.eq_refl : (v : Obj) → Obj.eq v v = true
  | .null => rfl
  | .bool b => by simp [Obj.eq]
  | .signed i => by
    by_cases h : (0 : Int) ≤ i <;>
      simp [Obj.eq, Obj.unsignedEq, Obj.eqSigned, h]
  | .unsigned n => by simp [Obj.eq]
  | .float x => by
    by_cases h : F64.isNan x = true <;>
      simp [Obj.eq, F64.ieeeEq, h]
  | .str s => by simp [Obj.eq]
  | .bin bs => by simp [Obj.eq]
  | .list l => by simp [Obj.eq, ObjList.eqL_refl l]
  | .map m => by simp [Obj.eq, ObjMap.eqM_refl m]

theorem ObjList.eqL_refl : (l : ObjList) → ObjList.eqL l l = true
  | .nil => rfl
  | .cons h t => by simp [ObjList.eqL, Obj.eq_refl h, ObjList.eqL_refl t]

theorem ObjMap.eqM_refl : (m : ObjMap) → ObjMap.eqM m m = true
  | .nil => rfl
  | .cons k v t => by simp [ObjMap.eqM, Obj.eq_refl k, Obj.eq_refl v, ObjMap.eqM_refl t]

end

theorem ObjMap.append_nil : (m : ObjMap) → ObjMap.append m .nil = m
  | .nil => rfl
  | .cons k v tl => by simp [ObjMap.append, ObjMap.append_nil tl]

theorem ObjMap.append_cons_assoc (k v : Obj) :
    (a b : ObjMap) → ObjMap.append (ObjMap.append a (.cons k v .nil)) b
      = ObjMap.append a (.cons k v b)
  | .nil, b => rfl
  | .cons k' v' tl, b => by
    simp [ObjMap.append, ObjMap.append_cons_assoc k v tl b]

theorem ObjMap.keyGtAll_append (k : Obj) :
    (a b : ObjMap) → ObjMap.keyGtAll k (ObjMap.append a b)
      = (ObjMap.keyGtAll k a && ObjMap.keyGtAll k b)
  | .nil, b => by simp [ObjMap.append, ObjMap.keyGtAll]
  | .cons k' v' tl, b => by
    simp [ObjMap.append, ObjMap.keyGtAll, ObjMap.keyGtAll_append k tl b, Bool.and_assoc]

theorem ObjMap.allGtAll_nil : (m : ObjMap) → ObjMap.allGtAll m .nil = true
  | .nil => rfl
  | .cons k _ tl => by simp [ObjMap.allGtAll, ObjMap.keyGtAll, ObjMap.allGtAll_nil tl]

/-- Inserting a key that compares `Greater` against every stored key appends
    the new entry at the end. -/
theorem ObjMap.insert_keyGtAll (k v : Obj) :
    (m : ObjMap) → ObjMap.keyGtAll k m = true →
      ObjMap.insert k v m = ObjMap.append m (.cons k v .nil)
  | .nil, _ => rfl
  | .cons k' v' tl, h => by
    rw [ObjMap.keyGtAll, Bool.and_eq_true] at h
    obtain ⟨h1, h2⟩ := h
    replace h1 := of_decide_eq_true h1
    simp [ObjMap.insert, ObjMap.append, h1, ObjMap.insert_keyGtAll k v tl h2]

theorem ObjMap.allGtAll_append_single (k v : Obj) (acc : ObjMap) :
    (m : ObjMap) → ObjMap.allGtAll m acc = true → ObjMap.allKeysGt m k = true →
      ObjMap.allGtAll m (ObjMap.append acc (.cons k v .nil)) = true
  | .nil, _, _ => rfl
  | .cons k' v' tl, h1, h2 => by
    rw [ObjMap.allGtAll, Bool.and_eq_true] at h1
    rw [ObjMap.allKeysGt, Bool.and_eq_true] at h2
    simp [ObjMap.allGtAll, ObjMap.keyGtAll_append, h1.1, h2.1, ObjMap.keyGtAll,
      ObjMap.allGtAll_append_single k v acc tl h1.2 h2.2]

/-- Overwriting an equal key: inserting `k` into a map whose earlier entries
    are all `Greater`-dominated by `k` and whose next entry's key compares
    `Equal` to `k` replaces that entry's value, keeps its stored key, and adds
    no entry. -/
theorem ObjMap.insert_overwrite (k v k0 v0 : Obj) (tl : ObjMap) :
    (pre : ObjMap) → ObjMap.keyGtAll k pre = true → Obj.cmp k k0 = .eq →
      ObjMap.insert k v (ObjMap.append pre (.cons k0 v0 tl))
        = ObjMap.append pre (.cons k0 v tl)
  | .nil, _, hc => by simp [ObjMap.append, ObjMap.insert, hc]
  | .cons k' v' pre', h, hc => by
    rw [ObjMap.keyGtAll, Bool.and_eq_true] at h
    obtain ⟨h1, h2⟩ := h
    replace h1 := of_decide_eq_true h1
    simp [ObjMap.append, ObjMap.insert, h1,
      ObjMap.insert_overwrite k v k0 v0 tl pre' h2 hc]

mutual

/-- Emitting a well-formed value and building it back reproduces the value
    exactly. -/
theorem Obj.roundtrip : (v : Obj) → v.wf = true → buildValue v.emit = .ok v
  | .null, _ => rfl
  | .bool _, _ => rfl
  | .signed _, _ => rfl
  | .unsigned _, _ => rfl
  | .float _, _ => rfl
  | .str _, _ => rfl
  | .bin _, _ => rfl
  | .list l, h => by
    rw [Obj.wf] at h
    simp [Obj.emit, buildValue, ObjList.roundtripL l h]
  | .map m, h => by
    rw [Obj.wf, Bool.and_eq_true] at h
    have := ObjMap.roundtripM m .nil h.2 h.1 (ObjMap.allGtAll_nil m)
    simp [Obj.emit, buildValue, this, ObjMap.append]

theorem ObjList.roundtripL : (l : ObjList) → ObjList.wfL l = true →
    buildList (ObjList.emitL l) = .ok l
  | .nil, _ => rfl
  | .cons hd tl, h => by
    rw [ObjList.wfL, Bool.and_eq_true] at h
    simp [ObjList.emitL, buildList, Obj.roundtrip hd h.1, ObjList.roundtripL tl h.2]

theorem ObjMap.roundtripM : (m : ObjMap) → (acc : ObjMap) → ObjMap.wfM m = true →
    ObjMap.ordered m = true → ObjMap.allGtAll m acc = true →
      buildMap acc (ObjMap.emitM m) = .ok (ObjMap.append acc m)
  | .nil, acc, _, _, _ => by simp [ObjMap.emitM, buildMap, ObjMap.append_nil]
  | .cons k v tl, acc, hwf, hord, hgt => by
    rw [ObjMap.wfM, Bool.and_eq_true, Bool.and_eq_true] at hwf
    rw [ObjMap.ordered, Bool.and_eq_true] at hord
    rw [ObjMap.allGtAll, Bool.and_eq_true] at hgt
    have hins := ObjMap.insert_keyGtAll k v acc hgt.1
    have hrec := ObjMap.roundtripM tl (ObjMap.append acc (.cons k v .nil))
      hwf.2 hord.2 (ObjMap.allGtAll_append_single k v acc tl hgt.2 hord.1)
    simp [ObjMap.emitM, buildMap, Obj.roundtrip k hwf.1.1, Obj.roundtrip v hwf.1.2,
      hins, hrec, ObjMap.append_cons_assoc]

end

mutual

/-- Building from a clean event tree (one on which the underlying decoder
    never errors) always succeeds. -/
theorem buildValue_clean : (e : Event) → Event.clean e = true →
    isOkE (buildValue e) = true
  | .noneE, _ => rfl
  | .unitE, _ => rfl
  | .boolE _, _ => rfl
  | .u64E _, _ => rfl
  | .i64E _, _ => rfl
  | .f64E _, _ => rfl
  | .strE _, _ => rfl
  | .stringE _, _ => rfl
  | .bytesE _, _ => rfl
  | .byteBufE _, _ => rfl
  | .seqE l err, h => by
    rw [Event.clean, Bool.and_eq_true] at h
    have hl := buildList_clean l h.2
    have herr : err = Option.none := Option.isNone_iff_eq_none.mp h.1
    cases hbl : buildList l with
    | error e => rw [hbl] at hl; simp [isOkE] at hl
    | ok vs => simp [buildValue, hbl, herr, isOkE]
  | .mapE ps err, h => by
    rw [Event.clean, Bool.and_eq_true] at h
    have hm := buildMap_clean ps h.2 .nil
    have herr : err = Option.none := Option.isNone_iff_eq_none.mp h.1
    cases hbm : buildMap .nil ps with
    | error e => rw [hbm] at hm; simp [isOkE] at hm
    | ok m => simp [buildValue, hbm, herr, isOkE]
  | .fail _, h => by simp [Event.clean] at h

theorem buildList_clean : (l : EventList) → EventList.cleanL l = true →
    isOkE (buildList l) = true
  | .nil, _ => rfl
  | .cons hd tl, h => by
    rw [EventList.cleanL, Bool.and_eq_true] at h
    have h1 := buildValue_clean hd h.1
    have h2 := buildList_clean tl h.2
    cases hb : buildValue hd with
    | error e => rw [hb] at h1; simp [isOkE] at h1
    | ok v =>
      cases hbl : buildList tl with
      | error e => rw [hbl] at h2; simp [isOkE] at h2
      | ok vs => simp [buildList, hb, hbl, isOkE]

theorem buildMap_clean : (ps : EventPairs) → EventPairs.cleanP ps = true →
    (acc : ObjMap) → isOkE (buildMap acc ps) = true
  | .nil, _, _ => rfl
  | .cons ke ve tl, h, acc => by
    rw [EventPairs.cleanP, Bool.and_eq_true, Bool.and_eq_true] at h
    have hk := buildValue_clean ke h.1.1
    have hv := buildValue_clean ve h.1.2
    cases hbk : buildValue ke with
    | error e => rw [hbk] at hk; simp [isOkE] at hk
    | ok k =>
      cases hbv : buildValue ve with
      | error e => rw [hbv] at hv; simp [isOkE] at hv
      | ok v =>
        have := buildMap_clean tl h.2 (ObjMap.insert k v acc)
        simp [buildMap, hbk, hbv, this]

end

/-- Decoding a nested single-element sequence succeeds at every depth and
    produces the corresponding nested list. -/
theorem buildValue_nestedSeq : (n : Nat) → buildValue (nestedSeq n) = .ok (nestedObj n)
  | 0 => rfl
  | n + 1 => by
    simp [nestedSeq, nestedObj, buildValue, buildList, buildValue_nestedSeq n]

/-- C1. Refutation at a concrete input: the claim says `a == b` iff
    `cmp(a, b)` is `Equal` for every pair, including NaN floats. For
    `a = b = Float(f64::NAN)` the `PartialEq` implementation returns `true`
    (two NaNs are equal) while the `Ord` implementation returns `Greater`,
    not `Equal`, so equality is not the `Equal` case of the order there —
    contradicting the `Obj` doc note that `PartialEq`, `PartialOrd` and `Ord`
    all treat NaN floats as equal. -/
theorem eq_cmp_disagree_on_nan :
    Obj.eq (.float F64.nanBits) (.float F64.nanBits) = true ∧
    Obj.cmp (.float F64.nanBits) (.float F64.nanBits) = Ordering.gt ∧
    Obj.cmp (.float F64.nanBits) (.float F64.nanBits) ≠ Ordering.eq := by
  decide

/-- C2. Refutation at a concrete input: the claim says `cmp` is a strict
    total order with `cmp(a, a) = Equal` for every `a` including
    `Float(NaN)`, and antisymmetric. On NaN floats `cmp` is not reflexive
    (`cmp(NaN, NaN) = Greater`), antisymmetry fails (`Greater` in both
    directions for two NaN payloads), and on `a = b = Float(NaN)` both
    `a == b` and `a > b` hold, so "exactly one of `a<b`, `a==b`, `a>b`"
    fails as well. -/
theorem cmp_not_reflexive_on_nan :
    Obj.cmp (.float F64.nanBits) (.float F64.nanBits) = Ordering.gt ∧
    Obj.cmp (.float F64.nanBits) (.float F64.nanBits2) = Ordering.gt ∧
    Obj.cmp (.float F64.nanBits2) (.float F64.nanBits) = Ordering.gt ∧
    Obj.eq (.float F64.nanBits) (.float F64.nanBits) = true ∧
    Obj.cmp (.float F64.nanBits) (.float F64.nanBits) ≠ Ordering.eq := by
  decide

/-- C3. Refutation at a concrete input: the claim says `a == b` implies
    `hash(a) = hash(b)` and that all NaN payloads hash identically. The
    `Hash` implementation writes the raw transmuted bit pattern of a `Float`,
    so the two equal NaN payloads `0x7ff8000000000000` and
    `0x7ff8000000000001` write different words to the hasher; `+0.0` and
    `-0.0` (equal under IEEE `==`) diverge the same way. -/
theorem hash_breaks_eq_on_nan :
    Obj.eq (.float F64.nanBits) (.float F64.nanBits2) = true ∧
    Obj.hashToks (.float F64.nanBits) ≠ Obj.hashToks (.float F64.nanBits2) ∧
    Obj.eq (.float 0) (.float 0x8000000000000000) = true ∧
    Obj.hashToks (.float 0) ≠ Obj.hashToks (.float 0x8000000000000000) := by
  decide

/-- C4. For every `n` with `0 ≤ n ≤ i64::MAX`, `Signed(n)` and
    `Unsigned(n as u64)` are equal under `PartialEq` (whichever side the
    `Signed` appears on), compare `Equal` under `Ord` in both directions, and
    write identical hash streams; the stored value nevertheless keeps its
    `Signed` variant tag (the two constructors remain distinct values). -/
theorem signed_unsigned_canonical_equiv (n : Int) (h0 : 0 ≤ n) (h1 : n ≤ 2 ^ 63 - 1) :
    Obj.eq (.signed n) (.unsigned n.toNat) = true ∧
    Obj.eq (.unsigned n.toNat) (.signed n) = true ∧
    Obj.cmp (.signed n) (.unsigned n.toNat) = Ordering.eq ∧
    Obj.cmp (.unsigned n.toNat) (.signed n) = Ordering.eq ∧
    Obj.hashToks (.signed n) = Obj.hashToks (.unsigned n.toNat) ∧
    Obj.signed n ≠ Obj.unsigned n.toNat := by
  refine ⟨?_, ?_, ?_, ?_, ?_, ?_⟩
  · simp [Obj.eq, Obj.unsignedEq, h0]
  · simp [Obj.eq, Obj.eqUnsigned, h0]
  · simp [Obj.cmp, Obj.unsignedCmp, h0, ncmp]
  · simp [Obj.cmp, Obj.cmpUnsigned, h0, ncmp]
  · simp [Obj.hashToks, h0]
  · intro hcontra
    exact Obj.noConfusion hcontra

/-- Witness for C4 at `n = 1`. -/
theorem signed_unsigned_canonical_equiv_witness :
    (0 : Int) ≤ 1 ∧ (1 : Int) ≤ 2 ^ 63 - 1 ∧
    (Obj.eq (.signed 1) (.unsigned (1 : Int).toNat) = true ∧
     Obj.eq (.unsigned (1 : Int).toNat) (.signed 1) = true ∧
     Obj.cmp (.signed 1) (.unsigned (1 : Int).toNat) = Ordering.eq ∧
     Obj.cmp (.unsigned (1 : Int).toNat) (.signed 1) = Ordering.eq ∧
     Obj.hashToks (.signed 1) = Obj.hashToks (.unsigned (1 : Int).toNat) ∧
     Obj.signed 1 ≠ Obj.unsigned (1 : Int).toNat) :=
  ⟨by decide, by decide, signed_unsigned_canonical_equiv 1 (by decide) (by decide)⟩

/-- C6. NaN closure: two `Float` NaNs are equal whatever their payload bits;
    a NaN `Float` is never equal to `Float(0.0)` nor to any non-NaN `Float`;
    and a NaN compares `Greater` than every non-NaN float (and the non-NaN
    side compares `Less`). -/
theorem nan_closure (n1 n2 x : Nat) (h1 : F64.isNan n1 = true) (h2 : F64.isNan n2 = true)
    (hx : F64.isNan x = false) :
    Obj.eq (.float n1) (.float n2) = true ∧
    Obj.eq (.float n1) (.float 0) = false ∧
    Obj.eq (.float n1) (.float x) = false ∧
    Obj.eq (.float x) (.float n1) = false ∧
    Obj.cmp (.float n1) (.float x) = Ordering.gt ∧
    Obj.cmp (.float x) (.float n1) = Ordering.lt := by
  have h0 : F64.isNan 0 = false := rfl
  refine ⟨?_, ?_, ?_, ?_, ?_, ?_⟩ <;>
    simp [Obj.eq, Obj.cmp, F64.ieeeEq, F64.cmpF, h1, h2, hx, h0]

/-- Witness for C6 at `n1 = f64::NAN`, `n2` a second NaN payload, `x = 0.0`. -/
theorem nan_closure_witness :
    F64.isNan F64.nanBits = true ∧ F64.isNan F64.nanBits2 = true ∧
    F64.isNan 0 = false ∧
    (Obj.eq (.float F64.nanBits) (.float F64.nanBits2) = true ∧
     Obj.eq (.float F64.nanBits) (.float 0) = false ∧
     Obj.eq (.float F64.nanBits) (.float 0) = false ∧
     Obj.eq (.float 0) (.float F64.nanBits) = false ∧
     Obj.cmp (.float F64.nanBits) (.float 0) = Ordering.gt ∧
     Obj.cmp (.float 0) (.float F64.nanBits) = Ordering.lt) :=
  ⟨by decide, by decide, by decide,
   nan_closure F64.nanBits F64.nanBits2 0 (by decide) (by decide) (by decide)⟩

/-- C7. Negative `Signed` values sit in their own ordinal class strictly
    below the `Unsigned` class and never equal it: for every `i64` value
    `i < 0` and every `u64` value `u`, `cmp(Signed(i), Unsigned(u)) = Less`,
    the reverse comparison is `Greater`, and the two values are unequal in
    both directions — in particular for `i = -1` and `u = u64::MAX`, whose
    two's-complement bit patterns coincide (see the witness). -/
theorem negative_signed_below_unsigned (i : Int) (u : Nat) (hlo : -(2 ^ 63) ≤ i)
    (hi : i < 0) (hu : u < 2 ^ 64) :
    Obj.cmp (.signed i) (.unsigned u) = Ordering.lt ∧
    Obj.cmp (.unsigned u) (.signed i) = Ordering.gt ∧
    Obj.eq (.signed i) (.unsigned u) = false ∧
    Obj.eq (.unsigned u) (.signed i) = false := by
  have h0 : ¬ (0 : Int) ≤ i := by omega
  refine ⟨?_, ?_, ?_, ?_⟩ <;>
    simp [Obj.cmp, Obj.eq, Obj.signedCmp, Obj.eqSigned, Obj.eqSignedR,
      Obj.typeNum, ncmp, h0]

/-- Witness for C7 at `i = -1`, `u = u64::MAX` (identical bit patterns). -/
theorem negative_signed_below_unsigned_witness :
    -(2 ^ 63) ≤ (-1 : Int) ∧ (-1 : Int) < 0 ∧ 2 ^ 64 - 1 < 2 ^ 64 ∧
    (Obj.cmp (.signed (-1)) (.unsigned (2 ^ 64 - 1)) = Ordering.lt ∧
     Obj.cmp (.unsigned (2 ^ 64 - 1)) (.signed (-1)) = Ordering.gt ∧
     Obj.eq (.signed (-1)) (.unsigned (2 ^ 64 - 1)) = false ∧
     Obj.eq (.unsigned (2 ^ 64 - 1)) (.signed (-1)) = false) :=
  ⟨by norm_num, by norm_num, by norm_num,
   negative_signed_below_unsigned (-1) (2 ^ 64 - 1) (by norm_num) (by norm_num)
     (by norm_num)⟩

/-- C5 counterexample: the claim asserts there is a configured maximum
    nesting depth such that deeper inputs fail to decode. No such ceiling
    exists: for every candidate ceiling `D` the sequence nested to depth
    `D + 1` still decodes successfully, so no depth bound makes deeper
    inputs fail. -/
theorem no_nesting_ceiling_counterexample :
    buildValue (nestedSeq 1000) = .ok (nestedObj 1000) ∧
    ¬ ∃ D : Nat, ∀ n : Nat, D < n → isOkE (buildValue (nestedSeq n)) = false := by
  refine ⟨buildValue_nestedSeq 1000, ?_⟩
  rintro ⟨D, hD⟩
  have h := hD (D + 1) (Nat.lt_succ_self D)
  rw [buildValue_nestedSeq] at h
  simp [isOkE] at h

/-- C5, amended: the decode path enforces no nesting ceiling at all —
    `visit_seq`/`visit_map` recurse without any depth check (and no
    `NestingTooDeep` error exists in the crate), so a sequence nested to any
    depth `n` decodes successfully; the `Obj` documentation instead warns
    that attackers control the recursion depth of the process. -/
theorem decode_has_unbounded_depth (n : Nat) :
    buildValue (nestedSeq n) = .ok (nestedObj n) ∧
    isOkE (buildValue (nestedSeq n)) = true := by
  rw [buildValue_nestedSeq]
  exact ⟨rfl, rfl⟩

/-- C8. Round-trip law: emitting a well-formed value as its primitive event
    stream (`impl Serialize for Obj`) and building an `Obj` back from that
    same event stream (`GenericVisitor`) yields a value equal to the
    original under the crate's own `PartialEq` (here even the identical
    value: in the abstract event model a `Signed` value re-enters through
    `visit_i64`, so variants are preserved; resurfacing of non-negative
    `Signed` as `Unsigned` is a property of concrete wire formats and is
    permitted, not required, by the claim). `Obj.wf` is the `BTreeMap`
    storage invariant that every constructible `Map` payload carries. -/
theorem roundtrip_eq (v : Obj) (h : v.wf = true) :
    ∃ w, buildValue v.emit = .ok w ∧ Obj.eq w v = true :=
  ⟨v, Obj.roundtrip v h, Obj.eq_refl v⟩

/-- Witness for C8 at the two-entry map `{Unsigned(1): "a", "x": true}`. -/
theorem roundtrip_eq_witness :
    (Obj.map (.cons (.unsigned 1) (.str "a") (.cons (.str "x") (.bool true) .nil))).wf
      = true ∧
    ∃ w, buildValue
        (Obj.map (.cons (.unsigned 1) (.str "a") (.cons (.str "x") (.bool true) .nil))).emit
        = .ok w ∧
      Obj.eq w (Obj.map (.cons (.unsigned 1) (.str "a") (.cons (.str "x") (.bool true) .nil)))
        = true :=
  ⟨by decide,
   roundtrip_eq (Obj.map (.cons (.unsigned 1) (.str "a") (.cons (.str "x") (.bool true) .nil)))
     (by decide)⟩

/-- C9. Map build is last-write-wins over equal keys. First conjunct: when a
    key `k` compares `Greater` against every entry before some entry whose
    key compares `Equal` to `k` (the position `BTreeMap::insert` walks to),
    inserting `(k, v)` replaces that entry's value, keeps its stored key and
    adds no entry. Second conjunct: building a map from the entry stream
    `(u64 1, e1), (i64 1, e2)` yields exactly one entry, keyed by the first
    arrival `Unsigned(1)` and holding the value supplied with `Signed(1)`. -/
theorem map_last_write_wins :
    (∀ (pre tl : ObjMap) (k0 v0 k v : Obj),
      ObjMap.keyGtAll k pre = true → Obj.cmp k k0 = .eq →
        ObjMap.insert k v (ObjMap.append pre (.cons k0 v0 tl))
          = ObjMap.append pre (.cons k0 v tl)) ∧
    (∀ (e1 e2 : Event) (w1 w2 : Obj),
      buildValue e1 = .ok w1 → buildValue e2 = .ok w2 →
        buildValue (.mapE (.cons (.u64E 1) e1 (.cons (.i64E 1) e2 .nil)) Option.none)
          = .ok (.map (.cons (.unsigned 1) w2 .nil))) := by
  constructor
  · intro pre tl k0 v0 k v h hc
    exact ObjMap.insert_overwrite k v k0 v0 tl pre h hc
  · intro e1 e2 w1 w2 h1 h2
    have hcmp : Obj.cmp (.signed 1) (.unsigned 1) = Ordering.eq := by decide
    simp [buildValue, buildMap, h1, h2, ObjMap.insert, hcmp]

/-- Witness for C9: overwrite at the front of a one-entry map, and the
    concrete `{1: "a"}` then `{Signed(1): "b"}` build. -/
theorem map_last_write_wins_witness :
    ObjMap.insert (.signed 1) (.str "b")
        (ObjMap.append .nil (.cons (.unsigned 1) (.str "a") .nil))
      = ObjMap.append .nil (.cons (.unsigned 1) (.str "b") .nil) ∧
    buildValue
        (.mapE (.cons (.u64E 1) (.strE "a") (.cons (.i64E 1) (.strE "b") .nil)) Option.none)
      = .ok (.map (.cons (.unsigned 1) (.str "b") .nil)) :=
  ⟨map_last_write_wins.1 .nil .nil (.unsigned 1) (.str "a") (.signed 1) (.str "b")
     rfl (by decide),
   map_last_write_wins.2 (.strE "a") (.strE "b") (.str "a") (.str "b") rfl rfl⟩

/-- C10. The build visitor is itself error-free: every primitive event
    handler returns `Ok` with the corresponding `Obj` variant for every
    input, and a `seq`/`map` (or any) event on which the underlying decoder
    never fails — no failing element/entry access and successful `end()`
    calls — always builds successfully, so decoding fails only if the
    external event source fails. -/
theorem visitor_error_free :
    buildValue .noneE = .ok .null ∧
    buildValue .unitE = .ok .null ∧
    (∀ b, buildValue (.boolE b) = .ok (.bool b)) ∧
    (∀ n, buildValue (.u64E n) = .ok (.unsigned n)) ∧
    (∀ i, buildValue (.i64E i) = .ok (.signed i)) ∧
    (∀ bits, buildValue (.f64E bits) = .ok (.float bits)) ∧
    (∀ s, buildValue (.strE s) = .ok (.str s)) ∧
    (∀ s, buildValue (.stringE s) = .ok (.str s)) ∧
    (∀ bs, buildValue (.bytesE bs) = .ok (.bin bs)) ∧
    (∀ bs, buildValue (.byteBufE bs) = .ok (.bin bs)) ∧
    (∀ e, Event.clean e = true → isOkE (buildValue e) = true) :=
  ⟨rfl, rfl, fun _ => rfl, fun _ => rfl, fun _ => rfl, fun _ => rfl, fun _ => rfl,
   fun _ => rfl, fun _ => rfl, fun _ => rfl, buildValue_clean⟩

/-- Witness for C10 at the clean event `[null]` (a one-element sequence with
    a successful end). -/
theorem visitor_error_free_witness :
    Event.clean (.seqE (.cons .noneE .nil) Option.none) = true ∧
    isOkE (buildValue (.seqE (.cons .noneE .nil) Option.none)) = true :=
  ⟨rfl,
   visitor_error_free.2.2.2.2.2.2.2.2.2.2 (.seqE (.cons .noneE .nil) Option.none) rfl⟩
